import Mathlib

/-!
Shallow embedding of the cert-checker trust-decision engine.

The definitions below are direct translations of the Python source:
  - hostname matching          : `cert_checker/checker/remote.py`, `RemoteCertChecker._match_hostname`
  - expiration classification  : `cert_checker/checker/remote.py`, `RemoteCertChecker.check_expiration`
  - per-host orchestration     : `cert_checker/checker/remote.py`, `RemoteCertChecker.check_host`
  - signature verification     : `cert_checker/checker/validator.py`, `CertificateValidator.verify_signature`
  - chain validation           : `cert_checker/checker/validator.py`, `CertificateValidator.validate_chain`

Strings are modelled as `List Char`; datetimes as `Int` microseconds since an
arbitrary epoch (Python datetimes have microsecond resolution, and
`timedelta.days` is floor division of the total microseconds by a day);
the external cryptography library's primitive verification calls are
modelled by an oracle parameter `CryptoOracle` which either succeeds or
fails with an exception message (the Python code catches every exception
and converts it to `False`).
-/

namespace CertChecker

/-- Dot-separated split of a character list, matching Python `s.split(".")`
for the single-character separator: `"".split(".") == [""]`,
`".x".split(".") == ["", "x"]`, `"a.b".split(".") == ["a", "b"]`. -/
def splitDot : List Char → List (List Char)
  | [] => [[]]
  | c :: cs =>
    if c = '.' then [] :: splitDot cs
    else
      match splitDot cs with
      | [] => [[c]]
      | l :: ls => (c :: l) :: ls

/-- Per-character lowercasing, matching Python `str.lower` on ASCII input. -/
def lowerStr (s : List Char) : List Char := s.map Char.toLower

/-- Embedding of `RemoteCertChecker._match_hostname` (remote.py lines 162-196):
lowercase both arguments, succeed on exact equality, otherwise on a leading
`"*."` compare the dot-separated label lists: equal length and all labels
except the first pairwise equal. -/
def match_hostname (pattern hostname : List Char) : Bool :=
  let p := lowerStr pattern
  let h := lowerStr hostname
  if p = h then true
  else if p.take 2 = ['*', '.'] then
    let pp := splitDot p
    let hp := splitDot h
    if pp.length ≠ hp.length then false
    else (pp.tail.zip hp.tail).all fun q => q.1 == q.2
  else false

end CertChecker


namespace CertChecker

/-- Public-key algorithm tag: the Python code dispatches on
`isinstance(public_key, rsa.RSAPublicKey / ec.EllipticCurvePublicKey /
dsa.DSAPublicKey)` with a catch-all `else`. -/
inductive KeyAlg where
  | rsa
  | ec
  | dsa
  | other
deriving DecidableEq, Repr

/-- Public key as the validator sees it: an algorithm tag plus abstract key
material (the bytes themselves are opaque to the checker). -/
structure PublicKey where
  alg : KeyAlg
  keyId : Nat
deriving DecidableEq, Repr

/-- Key-usage extension; only `key_cert_sign` is consulted by the validator. -/
structure KeyUsageExt where
  key_cert_sign : Bool
deriving DecidableEq, Repr

/-- Basic-constraints extension: CA flag and optional path-length constraint. -/
structure BasicConstraintsExt where
  ca : Bool
  path_length : Option Nat
deriving DecidableEq, Repr

/-- An X.509 certificate as seen by the checker: the fields the code reads
through the `cryptography` accessors. `x509.ExtensionNotFound` on a missing
extension is modelled by `Option`; validity instants are `Int` microseconds;
signature and to-be-signed bytes are abstract `Nat` tokens consumed only by
the crypto oracle. -/
structure Cert where
  subject : String
  issuer : String
  not_before : Int
  not_after : Int
  subject_cn : Option (List Char)
  san : List (List Char)
  key_usage : Option KeyUsageExt
  basic_constraints : Option BasicConstraintsExt
  public_key : PublicKey
  signature : Nat
  tbs_certificate_bytes : Nat
  signature_hash_algorithm : Nat
deriving DecidableEq, Repr

/-- Status enumeration of `remote.py` (`CertificateStatus`). -/
inductive CertificateStatus where
  | valid
  | warning
  | expired
  | error
deriving DecidableEq, Repr

/-- Expiration information (`remote.py` dataclass `ExpirationInfo`). -/
structure ExpirationInfo where
  not_before : Int
  not_after : Int
  days_remaining : Int
  is_expired : Bool
  is_warning : Bool
  status : CertificateStatus
deriving DecidableEq, Repr

/-- Microseconds in a day; Python `timedelta.days` is the floor of the total
microseconds divided by this constant. -/
def usecPerDay : Int := 86400000000

/-- Embedding of `RemoteCertChecker.check_expiration` (remote.py lines 99-136)
with the sampled clock `datetime.now(timezone.utc)` passed in as `now`.
`(not_after - now).days` is Python floor division, hence `Int.fdiv`. -/
def check_expiration (now : Int) (cert : Cert) (warning_days : Int) : ExpirationInfo :=
  let days_remaining := Int.fdiv (cert.not_after - now) usecPerDay
  let is_expired : Bool := decide (cert.not_after < now)
  let is_warning : Bool := !is_expired && decide (days_remaining < warning_days)
  let status :=
    if is_expired then CertificateStatus.expired
    else if is_warning then CertificateStatus.warning
    else CertificateStatus.valid
  { not_before := cert.not_before
    not_after := cert.not_after
    days_remaining := days_remaining
    is_expired := is_expired
    is_warning := is_warning
    status := status }

/-- Embedding of `RemoteCertChecker.verify_hostname` (remote.py lines 138-160):
the CN is tried first (Python truthiness: `None` and the empty string are both
skipped), then every SAN entry; any single match suffices. -/
def verify_hostname (cert : Cert) (fqdn : List Char) : Bool :=
  (match cert.subject_cn with
   | some cn => !cn.isEmpty && match_hostname cn fqdn
   | none => false)
  || cert.san.any fun s => match_hostname s fqdn

end CertChecker

namespace CertChecker

/-- Result of checking a single host (`remote.py` dataclass `HostCheckResult`). -/
structure HostCheckResult where
  host_name : List Char
  fqdn : List Char
  port : Nat
  status : CertificateStatus
  certificate : Option Cert := none
  certificate_chain : Option (List Cert) := none
  expiration : Option ExpirationInfo := none
  hostname_valid : Option Bool := none
  error : Option String := none
deriving DecidableEq, Repr

/-- Outcome of `get_certificate_chain` as observed at the `try` boundary of
`check_host` (remote.py lines 221-290): either the fetched chain, or one of
the four exception classes the code catches (`socket.timeout`,
`socket.gaierror`, `socket.error`/`ssl.SSLError`, any other `Exception`),
each carrying the exception's rendered message where the code interpolates it. -/
inductive FetchOutcome where
  | success (chain : List Cert)
  | timeout
  | gaierror (msg : String)
  | sockerror (msg : String)
  | unexpected (msg : String)
deriving DecidableEq, Repr

/-- Error-shaped `HostCheckResult` as built by every `except` branch of
`check_host`: status ERROR, message in `error`, every other optional field
left at its `None` default. -/
def errResult (hn fq : List Char) (port : Nat) (msg : String) : HostCheckResult :=
  { host_name := hn, fqdn := fq, port := port,
    status := CertificateStatus.error, error := some msg }

/-- Embedding of `RemoteCertChecker.check_host` (remote.py lines 198-290).
The network fetch is a `FetchOutcome` parameter and the clock consulted by
`check_expiration` is `now`; `tout` and `self_tout` are the call's `timeout`
argument and the checker's default, combined by `timeout or self.timeout` for
the timeout message. The Python default `host_name = host_name or fqdn`
treats both `None` and the empty string as absent. -/
def check_host (now : Int) (fetch : FetchOutcome) (fqdn : List Char) (port : Nat)
    (warning_days : Int) (host_name : Option (List Char))
    (tout : Option Nat) (self_tout : Nat) : HostCheckResult :=
  let hn := match host_name with
    | some h => if h.isEmpty then fqdn else h
    | none => fqdn
  match fetch with
  | .success chain =>
    match chain with
    | [] =>
      { host_name := hn, fqdn := fqdn, port := port,
        status := CertificateStatus.error, error := some "No certificate received" }
    | cert :: _ =>
      let expiration := check_expiration now cert warning_days
      let hostname_valid := verify_hostname cert fqdn
      let status := if hostname_valid then expiration.status else CertificateStatus.error
      { host_name := hn, fqdn := fqdn, port := port, status := status,
        certificate := some cert, certificate_chain := some chain,
        expiration := some expiration, hostname_valid := some hostname_valid }
  | .timeout =>
    let t := tout.getD self_tout
    errResult hn fqdn port s!"Connection timeout after {t}s"
  | .gaierror m => errResult hn fqdn port ("DNS resolution failed: " ++ m)
  | .sockerror m => errResult hn fqdn port ("Connection error: " ++ m)
  | .unexpected m => errResult hn fqdn port ("Unexpected error: " ++ m)

end CertChecker

namespace CertChecker

/-- Validation status enumeration of `validator.py` (`ValidationStatus`). -/
inductive ValidationStatus where
  | valid
  | invalid
  | warning
deriving DecidableEq, Repr

/-- Certificate validation result (`validator.py` dataclass `ValidationResult`). -/
structure ValidationResult where
  status : ValidationStatus
  messages : List String
  is_valid : Bool
deriving DecidableEq, Repr

/-- Signature scheme actually requested from the cryptography library:
`verify_signature` pairs RSA keys with PKCS#1 v1.5 padding, EC keys with
ECDSA, and DSA keys with a direct `verify` call. -/
inductive SigScheme where
  | rsaPkcs1v15
  | ecdsa
  | dsaDirect
deriving DecidableEq, Repr

/-- Oracle standing for the cryptography library's `public_key.verify`:
given the scheme, the key material, the signature bytes, the to-be-signed
bytes and the declared hash algorithm, it either returns (`ok`) or raises
(`error` with the exception text). -/
def CryptoOracle : Type :=
  SigScheme → Nat → Nat → Nat → Nat → Except String Unit

/-- Embedding of `CertificateValidator.verify_signature` (validator.py lines
46-96): dispatch on the issuer's key algorithm, hand the certificate's
signature, exact `tbs_certificate_bytes` and declared hash algorithm to the
library, catch every exception as `false`; unknown key types return `false`
unconditionally. -/
def verify_signature (cv : CryptoOracle) (cert issuer_cert : Cert) : Bool :=
  match issuer_cert.public_key.alg with
  | .rsa =>
    match cv .rsaPkcs1v15 issuer_cert.public_key.keyId cert.signature
        cert.tbs_certificate_bytes cert.signature_hash_algorithm with
    | .ok _ => true
    | .error _ => false
  | .ec =>
    match cv .ecdsa issuer_cert.public_key.keyId cert.signature
        cert.tbs_certificate_bytes cert.signature_hash_algorithm with
    | .ok _ => true
    | .error _ => false
  | .dsa =>
    match cv .dsaDirect issuer_cert.public_key.keyId cert.signature
        cert.tbs_certificate_bytes cert.signature_hash_algorithm with
    | .ok _ => true
    | .error _ => false
  | .other => false

/-- Embedding of `CertificateValidator.check_key_usage` (validator.py lines
98-139): missing key-usage extension is a WARNING; a CA certificate whose
present key usage lacks `key_cert_sign` is INVALID; a missing
basic-constraints extension inside this check is silently passed over. -/
def check_key_usage (cert : Cert) : ValidationResult :=
  match cert.key_usage with
  | none =>
    { status := ValidationStatus.warning,
      messages := ["Key usage extension not found"], is_valid := true }
  | some ku =>
    match cert.basic_constraints with
    | some bc =>
      if bc.ca && !ku.key_cert_sign then
        { status := ValidationStatus.invalid,
          messages := ["CA certificate missing key_cert_sign usage"], is_valid := false }
      else
        { status := ValidationStatus.valid,
          messages := ["Key usage valid"], is_valid := true }
    | none =>
      { status := ValidationStatus.valid,
        messages := ["Key usage valid"], is_valid := true }

/-- Embedding of `CertificateValidator.check_basic_constraints` (validator.py
lines 141-175): informational messages about the CA flag and path length;
missing extension is a WARNING; never INVALID. -/
def check_basic_constraints (cert : Cert) : ValidationResult :=
  match cert.basic_constraints with
  | none =>
    { status := ValidationStatus.warning,
      messages := ["Basic constraints extension not found"], is_valid := true }
  | some bc =>
    if bc.ca then
      { status := ValidationStatus.valid,
        messages := "Certificate is a CA certificate" ::
          (match bc.path_length with
           | some n => [s!"Path length constraint: {n}"]
           | none => []),
        is_valid := true }
    else
      { status := ValidationStatus.valid,
        messages := ["Certificate is not a CA certificate"], is_valid := true }

/-- Message tag `f"Cert {i}: {msg}"` used throughout `validate_chain`. -/
def tagMsg (i : Nat) (m : String) : String := s!"Cert {i}: {m}"

/-- Structural pass of `validate_chain` (validator.py lines 199-214): walk the
chain in index order accumulating the tagged basic-constraints and key-usage
messages; the first certificate whose key-usage check is not valid aborts with
the INVALID result carrying everything accumulated so far. -/
def structuralPass : List Cert → Nat → List String → Except ValidationResult (List String)
  | [], _, msgs => .ok msgs
  | cert :: rest, i, msgs =>
    let bc := check_basic_constraints cert
    let msgs1 := msgs ++ bc.messages.map (tagMsg i)
    let ku := check_key_usage cert
    let msgs2 := msgs1 ++ ku.messages.map (tagMsg i)
    if ku.is_valid then structuralPass rest (i + 1) msgs2
    else .error { status := ValidationStatus.invalid, messages := msgs2, is_valid := false }

/-- Linkage pass of `validate_chain` (validator.py lines 217-241): for each
adjacent pair, first compare issuer/subject names (mismatch aborts without
touching the crypto oracle), then verify the signature (failure aborts),
otherwise record the confirmation and continue. -/
def linkagePass (cv : CryptoOracle) : List Cert → Nat → List String → Except ValidationResult (List String)
  | cert :: issuer :: rest, i, msgs =>
    if cert.issuer ≠ issuer.subject then
      .error { status := ValidationStatus.invalid,
               messages := msgs ++ [tagMsg i "Issuer does not match next cert in chain"],
               is_valid := false }
    else if !verify_signature cv cert issuer then
      .error { status := ValidationStatus.invalid,
               messages := msgs ++ [tagMsg i "Invalid signature from issuer"],
               is_valid := false }
    else
      linkagePass cv (issuer :: rest) (i + 1) (msgs ++ [tagMsg i "Signature valid"])
  | _, _, msgs => .ok msgs

/-- Trust-anchor search of `validate_chain` (validator.py lines 248-254): scan
the trust store in order; an anchor counts only if its subject equals the
root's subject AND its key verifies the root's signature; a name match with a
failing signature does not stop the scan. -/
def findTrusted (cv : CryptoOracle) (root : Cert) : List Cert → Bool
  | [] => false
  | t :: rest =>
    if root.subject == t.subject && verify_signature cv root t then true
    else findTrusted cv root rest

/-- Embedding of `CertificateValidator.validate_chain` (validator.py lines
177-268): empty-chain guard, structural pass, linkage pass, then — only when
`use_truststore` is set and the trust store is non-empty — the trust-anchor
check on the last chain element. -/
def validate_chain (cv : CryptoOracle) (truststore : List Cert)
    (cert_chain : List Cert) (use_truststore : Bool) : ValidationResult :=
  match cert_chain with
  | [] =>
    { status := ValidationStatus.invalid,
      messages := ["Empty certificate chain"], is_valid := false }
  | c :: cs =>
    match structuralPass (c :: cs) 0 [] with
    | .error r => r
    | .ok msgs1 =>
      match linkagePass cv (c :: cs) 0 msgs1 with
      | .error r => r
      | .ok msgs2 =>
        if use_truststore && !truststore.isEmpty then
          let root := (c :: cs).getLast (List.cons_ne_nil c cs)
          if findTrusted cv root truststore then
            { status := ValidationStatus.valid,
              messages := msgs2 ++ ["Root certificate found in truststore"],
              is_valid := true }
          else
            { status := ValidationStatus.invalid,
              messages := msgs2 ++ ["Root certificate not found in truststore"],
              is_valid := false }
        else
          { status := ValidationStatus.valid, messages := msgs2, is_valid := true }

/-- Embedding of `CertificateValidator.validate_single` (validator.py lines
270-313): basic-constraints and key-usage checks on the lone certificate,
then, when it is self-signed, verification against its own key. -/
def validate_single (cv : CryptoOracle) (cert : Cert) : ValidationResult :=
  let bc := check_basic_constraints cert
  let ku := check_key_usage cert
  let msgs := bc.messages ++ ku.messages
  if !ku.is_valid then
    { status := ValidationStatus.invalid, messages := msgs, is_valid := false }
  else if cert.subject = cert.issuer then
    if verify_signature cv cert cert then
      { status := ValidationStatus.valid,
        messages := msgs ++ ["Self-signed certificate with valid signature"],
        is_valid := true }
    else
      { status := ValidationStatus.invalid,
        messages := msgs ++ ["Self-signed certificate with INVALID signature"],
        is_valid := false }
  else
    { status := ValidationStatus.valid, messages := msgs, is_valid := true }

end CertChecker


namespace CertChecker

/-! Concrete fixtures used by witness theorems and counterexamples. -/

/-- Crypto oracle that accepts every signature. -/
def cvAllOk : CryptoOracle := fun _ _ _ _ _ => .ok ()

/-- Crypto oracle that rejects every signature (the library raises
`InvalidSignature` on every call). -/
def cvAllFail : CryptoOracle := fun _ _ _ _ _ => .error "InvalidSignature"

/-- Leaf certificate fixture: issued by `CN=root`, valid for 100 days
past the epoch, no extensions. -/
def certA : Cert :=
  { subject := "CN=leaf", issuer := "CN=root", not_before := 0,
    not_after := 100 * usecPerDay,
    subject_cn := some "leaf".toList, san := [], key_usage := none,
    basic_constraints := none, public_key := { alg := .rsa, keyId := 1 },
    signature := 10, tbs_certificate_bytes := 20, signature_hash_algorithm := 1 }

/-- Self-signed root certificate fixture with subject `CN=root`. -/
def certR : Cert :=
  { subject := "CN=root", issuer := "CN=root", not_before := 0,
    not_after := 100 * usecPerDay,
    subject_cn := some "root".toList, san := [], key_usage := none,
    basic_constraints := none, public_key := { alg := .rsa, keyId := 2 },
    signature := 11, tbs_certificate_bytes := 21, signature_hash_algorithm := 1 }

/-- Certificate fixture whose subject `CN=other` does not match
`certA.issuer`. -/
def certB : Cert :=
  { certR with
    subject := "CN=other"
    issuer := "CN=other"
    public_key := { alg := .rsa, keyId := 3 } }

/-- CA certificate fixture whose key-usage extension is present but lacks
`key_cert_sign`: the one structural hard-failure case. -/
def certBad : Cert :=
  { certR with
    subject := "CN=badca"
    issuer := "CN=badca"
    key_usage := some { key_cert_sign := false }
    basic_constraints := some { ca := true, path_length := none } }

/-- Non-self-signed final chain element: subject `CN=root` but issuer
`CN=above`. -/
def certRootNS : Cert :=
  { certR with
    issuer := "CN=above"
    public_key := { alg := .rsa, keyId := 4 } }

end CertChecker

namespace CertChecker

/-- C4: for every certificate, warning threshold and evaluation instant,
`check_expiration` reports status EXPIRED exactly when `now > not_after`
(strict comparison), WARNING exactly when not expired and
`days_remaining < warning_days`, and VALID exactly in the remaining case;
the three cases are exhaustive, reflecting the EXPIRED > WARNING > VALID
precedence of the if/elif/else cascade. -/
theorem C4_expiration_partition (now : Int) (cert : Cert) (warning_days : Int) :
    ((check_expiration now cert warning_days).status = CertificateStatus.expired ↔
       cert.not_after < now) ∧
    ((check_expiration now cert warning_days).status = CertificateStatus.warning ↔
       ¬ cert.not_after < now ∧
         (check_expiration now cert warning_days).days_remaining < warning_days) ∧
    ((check_expiration now cert warning_days).status = CertificateStatus.valid ↔
       ¬ cert.not_after < now ∧
         ¬ (check_expiration now cert warning_days).days_remaining < warning_days) ∧
    ((check_expiration now cert warning_days).status = CertificateStatus.expired ∨
     (check_expiration now cert warning_days).status = CertificateStatus.warning ∨
     (check_expiration now cert warning_days).status = CertificateStatus.valid) := by
  unfold check_expiration
  by_cases h1 : cert.not_after < now <;>
    by_cases h2 : Int.fdiv (cert.not_after - now) usecPerDay < warning_days <;>
      simp [h1, h2]

end CertChecker

namespace CertChecker

/-- Behaviour of `check_expiration` at an instant exactly 23 hours past
`not_after`: the certificate is expired and the floor-division day count is
`-1` (Python `timedelta.days` normalises a negative 23-hour delta to
`days = -1, seconds = 3600`). -/
lemma check_expiration_23h_past (cert : Cert) (warning_days : Int) :
    (check_expiration (cert.not_after + 23 * 3600 * 1000000) cert warning_days).is_expired = true ∧
    (check_expiration (cert.not_after + 23 * 3600 * 1000000) cert warning_days).days_remaining = -1 := by
  unfold check_expiration
  refine ⟨by simp, ?_⟩
  show Int.fdiv (cert.not_after - (cert.not_after + 23 * 3600 * 1000000)) usecPerDay = -1
  have h : cert.not_after - (cert.not_after + 23 * 3600 * 1000000) = -82800000000 := by ring
  rw [h]
  decide

end CertChecker

namespace CertChecker

/-- C9 (amended): `is_expired` uses a strict datetime comparison while
`days_remaining` uses day-floor arithmetic, but the two cannot disagree in
sign: at an evaluation instant exactly 23 hours past `not_after` the
expiration check reports `is_expired = true` together with
`days_remaining = -1` (not `0`), for every certificate and threshold. -/
theorem C9_day_boundary (cert : Cert) (warning_days : Int) :
    (check_expiration (cert.not_after + 23 * 3600 * 1000000) cert warning_days).is_expired = true ∧
    (check_expiration (cert.not_after + 23 * 3600 * 1000000) cert warning_days).days_remaining = -1 :=
  check_expiration_23h_past cert warning_days

/-- C9 counterexample to the claim as stated: there is no certificate and no
threshold for which the check evaluated 23 hours past `not_after` reports
`days_remaining = 0`; the floor arithmetic of `timedelta.days` yields `-1`. -/
theorem C9_counterexample :
    ¬ ∃ (cert : Cert) (warning_days : Int),
        (check_expiration (cert.not_after + 23 * 3600 * 1000000) cert warning_days).is_expired = true ∧
        (check_expiration (cert.not_after + 23 * 3600 * 1000000) cert warning_days).days_remaining = 0 := by
  rintro ⟨cert, warning_days, -, hdays⟩
  have h := (check_expiration_23h_past cert warning_days).2
  rw [hdays] at h
  exact absurd h (by decide)

end CertChecker

namespace CertChecker

/-- C6: when a certificate is received, the overall status of the
`HostCheckResult` equals the expiration status unless the hostname match
fails, in which case the status is forced to ERROR regardless of the
expiration state. -/
theorem C6_hostname_mismatch_forces_error
    (now : Int) (cert : Cert) (rest : List Cert) (fqdn : List Char) (port : Nat)
    (warning_days : Int) (host_name : Option (List Char))
    (tout : Option Nat) (self_tout : Nat) :
    ((check_host now (.success (cert :: rest)) fqdn port warning_days host_name
        tout self_tout).status =
      (if verify_hostname cert fqdn then (check_expiration now cert warning_days).status
       else CertificateStatus.error)) ∧
    (verify_hostname cert fqdn = false →
      (check_host now (.success (cert :: rest)) fqdn port warning_days host_name
          tout self_tout).status = CertificateStatus.error) := by
  constructor
  · rfl
  · intro h
    show (if verify_hostname cert fqdn then _ else _) = _
    rw [h]
    rfl

/-- C6 witness: for the leaf fixture `certA` checked against
`"example.com"` the hostname does not match while the expiration status at
the epoch is VALID, and `check_host` still reports overall status ERROR. -/
theorem C6_hostname_mismatch_forces_error_witness :
    verify_hostname certA "example.com".toList = false ∧
    (check_expiration 0 certA 30).status = CertificateStatus.valid ∧
    (check_host 0 (.success [certA]) "example.com".toList 443 30 none none 10).status =
      CertificateStatus.error :=
  ⟨by decide, by decide,
   (C6_hostname_mismatch_forces_error 0 certA [] "example.com".toList 443 30 none
      none 10).2 (by decide)⟩

end CertChecker

namespace CertChecker

/-- Concatenating anything onto a non-empty string yields a non-empty
string. -/
lemma append_ne_empty (a b : String) (ha : a ≠ "") : a ++ b ≠ "" := by
  intro h
  apply ha
  have hd := congrArg String.data h
  rw [String.data_append] at hd
  rcases List.append_eq_nil.mp hd with ⟨h1, -⟩
  exact String.ext h1

/-- C7: `check_host` is a total function; whenever the fetch does not deliver
a non-empty certificate chain (timeout, DNS failure, transport error, empty
response, unexpected exception) the result has status ERROR, a non-empty
error string and absent certificate/expiration; and for every outcome
exactly one of \x7berror populated\x7d and \x7bcertificate and expiration
populated\x7d holds, never both. -/
theorem C7_check_host_error_shape
    (now : Int) (fetch : FetchOutcome) (fqdn : List Char) (port : Nat)
    (warning_days : Int) (host_name : Option (List Char))
    (tout : Option Nat) (self_tout : Nat) :
    ((¬ ∃ cert rest, fetch = .success (cert :: rest)) →
      (check_host now fetch fqdn port warning_days host_name tout self_tout).status =
        CertificateStatus.error ∧
      (∃ s, (check_host now fetch fqdn port warning_days host_name tout self_tout).error =
          some s ∧ s ≠ "") ∧
      (check_host now fetch fqdn port warning_days host_name tout self_tout).certificate =
        none ∧
      (check_host now fetch fqdn port warning_days host_name tout self_tout).expiration =
        none) ∧
    (((check_host now fetch fqdn port warning_days host_name tout self_tout).error ≠ none ∧
      (check_host now fetch fqdn port warning_days host_name tout self_tout).certificate =
        none ∧
      (check_host now fetch fqdn port warning_days host_name tout self_tout).expiration =
        none) ∨
     ((check_host now fetch fqdn port warning_days host_name tout self_tout).error = none ∧
      (check_host now fetch fqdn port warning_days host_name tout self_tout).certificate ≠
        none ∧
      (check_host now fetch fqdn port warning_days host_name tout self_tout).expiration ≠
        none)) := by
  cases fetch with
  | success chain =>
    cases chain with
    | nil =>
      refine ⟨fun _ => ⟨rfl, ⟨"No certificate received", rfl, by decide⟩, rfl, rfl⟩, ?_⟩
      left
      exact ⟨by simp [check_host], rfl, rfl⟩
    | cons cert rest =>
      constructor
      · intro h
        exact absurd ⟨cert, rest, rfl⟩ h
      · right
        refine ⟨rfl, by simp [check_host], by simp [check_host]⟩
  | timeout =>
    refine ⟨fun _ => ⟨rfl, ⟨_, rfl, ?_⟩, rfl, rfl⟩, .inl ⟨by simp [check_host, errResult], rfl, rfl⟩⟩
    exact append_ne_empty _ _ (append_ne_empty _ _ (by decide))
  | gaierror m =>
    exact ⟨fun _ => ⟨rfl, ⟨_, rfl, append_ne_empty _ _ (by decide)⟩, rfl, rfl⟩,
      .inl ⟨by simp [check_host, errResult], rfl, rfl⟩⟩
  | sockerror m =>
    exact ⟨fun _ => ⟨rfl, ⟨_, rfl, append_ne_empty _ _ (by decide)⟩, rfl, rfl⟩,
      .inl ⟨by simp [check_host, errResult], rfl, rfl⟩⟩
  | unexpected m =>
    exact ⟨fun _ => ⟨rfl, ⟨_, rfl, append_ne_empty _ _ (by decide)⟩, rfl, rfl⟩,
      .inl ⟨by simp [check_host, errResult], rfl, rfl⟩⟩

/-- C7 witness: a DNS-resolution failure produces status ERROR with the
non-empty message and no certificate or expiration payload, and the
exactly-one-of invariant holds. -/
theorem C7_check_host_error_shape_witness :
    (¬ ∃ cert rest,
        FetchOutcome.gaierror "name not known" = FetchOutcome.success (cert :: rest)) ∧
    ((check_host 0 (.gaierror "name not known") "example.com".toList 443 30 none
        none 10).status = CertificateStatus.error ∧
     (∃ s, (check_host 0 (.gaierror "name not known") "example.com".toList 443 30 none
        none 10).error = some s ∧ s ≠ "") ∧
     (check_host 0 (.gaierror "name not known") "example.com".toList 443 30 none
        none 10).certificate = none ∧
     (check_host 0 (.gaierror "name not known") "example.com".toList 443 30 none
        none 10).expiration = none) := by
  have hne : ¬ ∃ cert rest,
      FetchOutcome.gaierror "name not known" = FetchOutcome.success (cert :: rest) := by
    rintro ⟨c, r, h⟩
    cases h
  exact ⟨hne,
    (C7_check_host_error_shape 0 (.gaierror "name not known") "example.com".toList 443 30
      none none 10).1 hne⟩

end CertChecker

namespace CertChecker

/-- C8: `verify_signature` is a total boolean function (every library
exception is caught and turned into `false`); it dispatches on the issuer's
public-key algorithm — RSA keys are used with PKCS#1 v1.5, EC keys with
ECDSA, DSA keys with a direct verification, each over the certificate's
exact `tbs_certificate_bytes` and declared hash algorithm, succeeding
exactly when the library call does not raise — and any other key algorithm
yields an unconditional `false`. -/
theorem C8_verify_signature_dispatch (cv : CryptoOracle) (cert issuer : Cert) :
    (issuer.public_key.alg = KeyAlg.other →
       verify_signature cv cert issuer = false) ∧
    (issuer.public_key.alg = KeyAlg.rsa →
       (verify_signature cv cert issuer = true ↔
         cv .rsaPkcs1v15 issuer.public_key.keyId cert.signature
           cert.tbs_certificate_bytes cert.signature_hash_algorithm = .ok ())) ∧
    (issuer.public_key.alg = KeyAlg.ec →
       (verify_signature cv cert issuer = true ↔
         cv .ecdsa issuer.public_key.keyId cert.signature
           cert.tbs_certificate_bytes cert.signature_hash_algorithm = .ok ())) ∧
    (issuer.public_key.alg = KeyAlg.dsa →
       (verify_signature cv cert issuer = true ↔
         cv .dsaDirect issuer.public_key.keyId cert.signature
           cert.tbs_certificate_bytes cert.signature_hash_algorithm = .ok ())) := by
  have hm : ∀ r : Except String Unit,
      ((match r with | .ok _ => true | .error _ => false) = true ↔ r = .ok ()) := by
    rintro (⟨⟩ | e) <;> simp
  unfold verify_signature
  exact ⟨fun h => by rw [h], fun h => by rw [h]; exact hm _, fun h => by rw [h]; exact hm _,
    fun h => by rw [h]; exact hm _⟩

/-- C8 witness: for the always-accepting oracle and the RSA-keyed fixture
`certR`, `verify_signature` succeeds exactly as the oracle call does. -/
theorem C8_verify_signature_dispatch_witness :
    certR.public_key.alg = KeyAlg.rsa ∧
    (verify_signature cvAllOk certA certR = true ↔
      cvAllOk .rsaPkcs1v15 certR.public_key.keyId certA.signature
        certA.tbs_certificate_bytes certA.signature_hash_algorithm = .ok ()) :=
  ⟨rfl, (C8_verify_signature_dispatch cvAllOk certA certR).2.1 rfl⟩

end CertChecker


namespace CertChecker

/-- Any early exit of the structural pass is an INVALID result with
`is_valid = false`. -/
lemma structuralPass_error_shape :
    ∀ (l : List Cert) (i : Nat) (msgs : List String) (r : ValidationResult),
      structuralPass l i msgs = .error r →
      r.status = ValidationStatus.invalid ∧ r.is_valid = false := by
  intro l
  induction l with
  | nil =>
    intro i msgs r h
    simp [structuralPass] at h
  | cons c rest ih =>
    intro i msgs r h
    simp only [structuralPass] at h
    split at h
    · exact ih _ _ _ h
    · simp only [Except.error.injEq] at h
      rw [← h]
      exact ⟨rfl, rfl⟩

/-- Any early exit of the linkage pass is an INVALID result with
`is_valid = false`. -/
lemma linkagePass_error_shape (cv : CryptoOracle) :
    ∀ (l : List Cert) (i : Nat) (msgs : List String) (r : ValidationResult),
      linkagePass cv l i msgs = .error r →
      r.status = ValidationStatus.invalid ∧ r.is_valid = false := by
  intro l
  induction l with
  | nil =>
    intro i msgs r h
    simp [linkagePass] at h
  | cons c rest ih =>
    intro i msgs r h
    cases rest with
    | nil => simp [linkagePass] at h
    | cons d rest2 =>
      simp only [linkagePass] at h
      split at h
      · simp only [Except.error.injEq] at h
        rw [← h]
        exact ⟨rfl, rfl⟩
      · split at h
        · simp only [Except.error.injEq] at h
          rw [← h]
          exact ⟨rfl, rfl⟩
        · exact ih _ _ _ h

/-- C10: every result produced by `validate_chain` or `validate_single` has
status VALID or INVALID — never WARNING, even when WARNING-level sub-check
messages appear in the trail — and its `is_valid` field is `true` exactly
when its status is VALID. -/
theorem C10_result_status_binary (cv : CryptoOracle) (ts chain : List Cert)
    (ut : Bool) (cert : Cert) :
    ((validate_chain cv ts chain ut).status = ValidationStatus.valid ∨
     (validate_chain cv ts chain ut).status = ValidationStatus.invalid) ∧
    ((validate_chain cv ts chain ut).is_valid = true ↔
     (validate_chain cv ts chain ut).status = ValidationStatus.valid) ∧
    ((validate_single cv cert).status = ValidationStatus.valid ∨
     (validate_single cv cert).status = ValidationStatus.invalid) ∧
    ((validate_single cv cert).is_valid = true ↔
     (validate_single cv cert).status = ValidationStatus.valid) := by
  have hchain :
      ((validate_chain cv ts chain ut).status = ValidationStatus.valid ∨
       (validate_chain cv ts chain ut).status = ValidationStatus.invalid) ∧
      ((validate_chain cv ts chain ut).is_valid = true ↔
       (validate_chain cv ts chain ut).status = ValidationStatus.valid) := by
    cases chain with
    | nil => exact ⟨Or.inr rfl, by simp [validate_chain]⟩
    | cons c cs =>
      rcases hs : structuralPass (c :: cs) 0 [] with r | msgs1
      · obtain ⟨h1, h2⟩ := structuralPass_error_shape _ _ _ _ hs
        have he : validate_chain cv ts (c :: cs) ut = r := by
          simp only [validate_chain, hs]
        rw [he, h1, h2]
        exact ⟨Or.inr rfl, by simp⟩
      · rcases hl : linkagePass cv (c :: cs) 0 msgs1 with r | msgs2
        · obtain ⟨h1, h2⟩ := linkagePass_error_shape cv _ _ _ _ hl
          have he : validate_chain cv ts (c :: cs) ut = r := by
            simp only [validate_chain, hs, hl]
          rw [he, h1, h2]
          exact ⟨Or.inr rfl, by simp⟩
        · have he : validate_chain cv ts (c :: cs) ut =
              (if ut && !ts.isEmpty then
                (if findTrusted cv ((c :: cs).getLast (List.cons_ne_nil c cs)) ts then
                  { status := ValidationStatus.valid,
                    messages := msgs2 ++ ["Root certificate found in truststore"],
                    is_valid := true }
                else
                  { status := ValidationStatus.invalid,
                    messages := msgs2 ++ ["Root certificate not found in truststore"],
                    is_valid := false })
              else
                { status := ValidationStatus.valid, messages := msgs2, is_valid := true }) := by
            simp only [validate_chain, hs, hl]
          rw [he]
          split
          · split
            · exact ⟨Or.inl rfl, by simp⟩
            · exact ⟨Or.inr rfl, by simp⟩
          · exact ⟨Or.inl rfl, by simp⟩
  have hsingle :
      ((validate_single cv cert).status = ValidationStatus.valid ∨
       (validate_single cv cert).status = ValidationStatus.invalid) ∧
      ((validate_single cv cert).is_valid = true ↔
       (validate_single cv cert).status = ValidationStatus.valid) := by
    simp only [validate_single]
    split
    · exact ⟨Or.inr rfl, by simp⟩
    · split
      · split
        · exact ⟨Or.inl rfl, by simp⟩
        · exact ⟨Or.inr rfl, by simp⟩
      · exact ⟨Or.inl rfl, by simp⟩
  exact ⟨hchain.1, hchain.2, hsingle.1, hsingle.2⟩

end CertChecker

namespace CertChecker

/-- Pairwise boolean equality over the zip of two equally long lists holds
exactly when the lists are equal. -/
lemma zip_all_beq_iff {α : Type} [BEq α] [LawfulBEq α] :
    ∀ (as bs : List α), as.length = bs.length →
      (((as.zip bs).all fun q => q.1 == q.2) = true ↔ as = bs) := by
  intro as
  induction as with
  | nil =>
    intro bs h
    cases bs with
    | nil => simp
    | cons b bs => simp at h
  | cons a as ih =>
    intro bs h
    cases bs with
    | nil => simp at h
    | cons b bs =>
      simp only [List.zip_cons_cons, List.all_cons, Bool.and_eq_true, beq_iff_eq,
        List.cons.injEq]
      rw [ih bs (by simpa using h)]

/-- Unfolding equation for `match_hostname`. -/
lemma match_hostname_eq (pattern hostname : List Char) :
    match_hostname pattern hostname =
      (if lowerStr pattern = lowerStr hostname then true
       else if (lowerStr pattern).take 2 = ['*', '.'] then
         (if (splitDot (lowerStr pattern)).length ≠ (splitDot (lowerStr hostname)).length
          then false
          else ((splitDot (lowerStr pattern)).tail.zip
              (splitDot (lowerStr hostname)).tail).all fun q => q.1 == q.2)
       else false) := rfl

/-- Hostname-match condition exactly as claim C1 states it: case-insensitive
exact equality succeeds; a leftmost wildcard pattern succeeds exactly when
the label counts agree, every label except the first is exactly equal, and
the wildcard covers one NON-EMPTY leftmost hostname label. -/
def claimedMatchCond (pattern hostname : List Char) : Prop :=
  lowerStr pattern = lowerStr hostname ∨
    ((lowerStr pattern).take 2 = ['*', '.'] ∧
     (splitDot (lowerStr pattern)).length = (splitDot (lowerStr hostname)).length ∧
     (splitDot (lowerStr pattern)).tail = (splitDot (lowerStr hostname)).tail ∧
     (splitDot (lowerStr hostname)).headI ≠ [])

/-- Hostname-match condition with the amendment the code forces: identical to
`claimedMatchCond` except that the leftmost hostname label covered by the
wildcard is not required to be non-empty. -/
def amendedMatchCond (pattern hostname : List Char) : Prop :=
  lowerStr pattern = lowerStr hostname ∨
    ((lowerStr pattern).take 2 = ['*', '.'] ∧
     (splitDot (lowerStr pattern)).length = (splitDot (lowerStr hostname)).length ∧
     (splitDot (lowerStr pattern)).tail = (splitDot (lowerStr hostname)).tail)

/-- C1 (amended): `match_hostname` is case-insensitive (it depends only on
the lowercased inputs) and succeeds exactly on case-insensitive equality or
on a leftmost wildcard with an equal number of dot-separated labels and all
labels except the first exactly equal — the wildcard thereby covering exactly
one leftmost label (never zero, never several), which however may be empty;
`"*.example.com"` matches `"api.example.com"` but not `"example.com"` or
`"a.b.example.com"`, and the partial-label wildcard `"f*.example.com"` falls
through to exact-match failure. -/
theorem C1_match_hostname_characterization (pattern hostname : List Char) :
    (match_hostname pattern hostname = true ↔ amendedMatchCond pattern hostname) ∧
    (∀ p h : List Char, lowerStr p = lowerStr pattern →
       lowerStr h = lowerStr hostname →
       match_hostname p h = match_hostname pattern hostname) ∧
    match_hostname "*.example.com".toList "api.example.com".toList = true ∧
    match_hostname "*.example.com".toList "example.com".toList = false ∧
    match_hostname "*.example.com".toList "a.b.example.com".toList = false ∧
    match_hostname "f*.example.com".toList "fx.example.com".toList = false := by
  refine ⟨?_, ?_, by decide, by decide, by decide, by decide⟩
  · rw [match_hostname_eq]
    unfold amendedMatchCond
    by_cases h1 : lowerStr pattern = lowerStr hostname
    · simp [h1]
    · by_cases h2 : (lowerStr pattern).take 2 = ['*', '.']
      · by_cases h3 : (splitDot (lowerStr pattern)).length =
            (splitDot (lowerStr hostname)).length
        · have htl : (splitDot (lowerStr pattern)).tail.length =
              (splitDot (lowerStr hostname)).tail.length := by
            simp [List.length_tail, h3]
          simp only [h1, h2, h3, if_true, if_false, ite_not, if_neg, ne_eq,
            not_true_eq_false, not_false_eq_true, ite_false, ite_true, false_or,
            true_and, iff_false, iff_true]
          exact zip_all_beq_iff _ _ htl
        · simp [h1, h2, h3]
      · simp [h1, h2]
  · intro p h hp hh
    rw [match_hostname_eq, match_hostname_eq, hp, hh]

/-- C1 witness: case-insensitivity instantiated at a concrete pattern and
hostname pair differing only by letter case. -/
theorem C1_match_hostname_characterization_witness :
    lowerStr "API.Example.COM".toList = lowerStr "api.example.com".toList ∧
    lowerStr "FOO.com".toList = lowerStr "foo.com".toList ∧
    match_hostname "API.Example.COM".toList "FOO.com".toList =
      match_hostname "api.example.com".toList "foo.com".toList :=
  ⟨by decide, by decide,
   (C1_match_hostname_characterization "api.example.com".toList "foo.com".toList).2.1
     "API.Example.COM".toList "FOO.com".toList (by decide) (by decide)⟩

/-- C1 counterexample to the claim as stated: the code accepts
`"*.example.com"` against `".example.com"`, whose leftmost label is empty,
while the claimed condition (wildcard label matches one NON-EMPTY leftmost
label) rejects it. -/
theorem C1_counterexample :
    match_hostname "*.example.com".toList ".example.com".toList = true ∧
    ¬ claimedMatchCond "*.example.com".toList ".example.com".toList := by
  constructor
  · decide
  · unfold claimedMatchCond
    decide

end CertChecker

namespace CertChecker

/-- Adjacent pairs `(chain[i], chain[i+1])` of a chain, in index order. -/
def chainPairs (l : List Cert) : List (Cert × Cert) := l.zip l.tail

lemma chainPairs_cons_cons (a b : Cert) (l : List Cert) :
    chainPairs (a :: b :: l) = (a, b) :: chainPairs (b :: l) := rfl

/-- Tagged confirmations `Cert j: Signature valid` for the `k` indices
starting at `i`. -/
def sigConfirms (i k : Nat) : List String :=
  (List.range k).map fun j => tagMsg (i + j) "Signature valid"

lemma sigConfirms_succ (i k : Nat) :
    sigConfirms i (k + 1) = tagMsg i "Signature valid" :: sigConfirms (i + 1) k := by
  unfold sigConfirms
  rw [List.range_succ_eq_map]
  simp only [List.map_cons, List.map_map, Nat.add_zero]
  congr 1
  apply List.map_congr_left
  intro j _
  simp only [Function.comp_apply]
  congr 1
  omega

/-- Successful run of the linkage pass: when every adjacent pair name-links
and signature-verifies, the pass walks the whole chain and appends one
confirmation per pair. -/
lemma linkagePass_ok_run (cv : CryptoOracle) :
    ∀ (l : List Cert) (i : Nat) (msgs : List String),
      (∀ p ∈ chainPairs l, p.1.issuer = p.2.subject ∧ verify_signature cv p.1 p.2 = true) →
      linkagePass cv l i msgs = .ok (msgs ++ sigConfirms i (l.length - 1)) := by
  intro l
  induction l with
  | nil =>
    intro i msgs _
    simp [linkagePass, sigConfirms]
  | cons c rest ih =>
    intro i msgs hp
    cases rest with
    | nil => simp [linkagePass, sigConfirms]
    | cons d rest2 =>
      have hcd : c.issuer = d.subject ∧ verify_signature cv c d = true :=
        hp (c, d) (by rw [chainPairs_cons_cons]; exact List.mem_cons_self _ _)
      have hrest : ∀ p ∈ chainPairs (d :: rest2),
          p.1.issuer = p.2.subject ∧ verify_signature cv p.1 p.2 = true := by
        intro p hmem
        exact hp p (by rw [chainPairs_cons_cons]; exact List.mem_cons_of_mem _ hmem)
      simp only [linkagePass, hcd.1, hcd.2, ne_eq, not_true_eq_false, if_false,
        Bool.not_true, ite_false, ite_true, if_neg, Bool.false_eq_true]
      rw [ih (i + 1) _ hrest]
      simp only [List.length_cons, Nat.add_sub_cancel]
      rw [sigConfirms_succ]
      simp [List.append_assoc]

end CertChecker

namespace CertChecker

/-- Full tagged message trail of the structural pass over a chain segment
starting at index `i`. -/
def structTrail : List Cert → Nat → List String
  | [], _ => []
  | c :: rest, i =>
    (check_basic_constraints c).messages.map (tagMsg i) ++
      (check_key_usage c).messages.map (tagMsg i) ++ structTrail rest (i + 1)

/-- Successful run of the structural pass: when every certificate passes the
key-usage check the pass accumulates the whole trail and continues. -/
lemma structuralPass_ok_run :
    ∀ (l : List Cert) (i : Nat) (msgs : List String),
      (∀ c ∈ l, (check_key_usage c).is_valid = true) →
      structuralPass l i msgs = .ok (msgs ++ structTrail l i) := by
  intro l
  induction l with
  | nil =>
    intro i msgs _
    simp [structuralPass, structTrail]
  | cons c rest ih =>
    intro i msgs h
    have hc := h c (List.mem_cons_self _ _)
    simp only [structuralPass, hc, if_true, structTrail]
    rw [ih (i + 1) _ (fun x hx => h x (List.mem_cons_of_mem _ hx))]
    simp [List.append_assoc]

/-- First-failure run of the structural pass: certificates before the failing
index all pass, the failing certificate's messages are still appended, and
the pass aborts with INVALID carrying everything accumulated so far. -/
lemma structuralPass_first_failure :
    ∀ (pre : List Cert) (cert : Cert) (rest : List Cert) (i : Nat) (msgs : List String),
      (∀ c ∈ pre, (check_key_usage c).is_valid = true) →
      (check_key_usage cert).is_valid = false →
      structuralPass (pre ++ cert :: rest) i msgs =
        .error { status := ValidationStatus.invalid,
                 messages := msgs ++ structTrail pre i ++
                   (check_basic_constraints cert).messages.map (tagMsg (i + pre.length)) ++
                   (check_key_usage cert).messages.map (tagMsg (i + pre.length)),
                 is_valid := false } := by
  intro pre
  induction pre with
  | nil =>
    intro cert rest i msgs _ hbad
    simp only [List.nil_append, structuralPass, hbad, Bool.false_eq_true, if_false,
      ite_false, structTrail, List.length_nil, Nat.add_zero, List.append_nil]
  | cons c pre' ih =>
    intro cert rest i msgs h hbad
    have hc := h c (List.mem_cons_self _ _)
    simp only [List.cons_append, structuralPass, hc, if_true, List.append_eq]
    rw [ih cert rest (i + 1) _ (fun x hx => h x (List.mem_cons_of_mem _ hx)) hbad]
    have hidx : i + 1 + pre'.length = i + (c :: pre').length := by
      simp [List.length_cons]
      omega
    rw [hidx]
    simp [structTrail, List.append_assoc]

end CertChecker

namespace CertChecker

/-- A structural-pass failure is returned by `validate_chain` unchanged. -/
lemma validate_chain_structural_error (cv : CryptoOracle) (ts : List Cert)
    (ut : Bool) (c : Cert) (cs : List Cert) (r : ValidationResult)
    (hs : structuralPass (c :: cs) 0 [] = .error r) :
    validate_chain cv ts (c :: cs) ut = r := by
  simp only [validate_chain, hs]

/-- A linkage-pass failure is returned by `validate_chain` unchanged. -/
lemma validate_chain_linkage_error (cv : CryptoOracle) (ts : List Cert)
    (ut : Bool) (c : Cert) (cs : List Cert) (m : List String) (r : ValidationResult)
    (hs : structuralPass (c :: cs) 0 [] = .ok m)
    (hl : linkagePass cv (c :: cs) 0 m = .error r) :
    validate_chain cv ts (c :: cs) ut = r := by
  simp only [validate_chain, hs, hl]

/-- When both passes succeed, `validate_chain` reduces to the trust-anchor
stage. -/
lemma validate_chain_passes (cv : CryptoOracle) (ts : List Cert)
    (ut : Bool) (c : Cert) (cs : List Cert) (m m2 : List String)
    (hs : structuralPass (c :: cs) 0 [] = .ok m)
    (hl : linkagePass cv (c :: cs) 0 m = .ok m2) :
    validate_chain cv ts (c :: cs) ut =
      (if ut && !ts.isEmpty then
        (if findTrusted cv ((c :: cs).getLast (List.cons_ne_nil c cs)) ts then
          { status := ValidationStatus.valid,
            messages := m2 ++ ["Root certificate found in truststore"],
            is_valid := true }
        else
          { status := ValidationStatus.invalid,
            messages := m2 ++ ["Root certificate not found in truststore"],
            is_valid := false })
      else
        { status := ValidationStatus.valid, messages := m2, is_valid := true }) := by
  simp only [validate_chain, hs, hl]

/-- The trust-anchor scan succeeds exactly when some anchor both name-matches
the root's subject and signature-verifies it. -/
lemma findTrusted_iff (cv : CryptoOracle) (root : Cert) :
    ∀ ts : List Cert,
      (findTrusted cv root ts = true ↔
        ∃ t ∈ ts, root.subject = t.subject ∧ verify_signature cv root t = true) := by
  intro ts
  induction ts with
  | nil => simp [findTrusted]
  | cons t rest ih =>
    simp only [findTrusted]
    by_cases h : (root.subject == t.subject && verify_signature cv root t) = true
    · simp only [h, if_true, true_iff]
      rcases Bool.and_eq_true_iff.mp h with ⟨h1, h2⟩
      exact ⟨t, List.mem_cons_self _ _, beq_iff_eq.mp h1, h2⟩
    · simp only [h, if_false, ite_false, Bool.false_eq_true]
      rw [ih]
      constructor
      · rintro ⟨u, hu, h1, h2⟩
        exact ⟨u, List.mem_cons_of_mem _ hu, h1, h2⟩
      · rintro ⟨u, hu, h1, h2⟩
        rcases List.mem_cons.mp hu with rfl | hu'
        · exact absurd (Bool.and_eq_true_iff.mpr ⟨beq_iff_eq.mpr h1, h2⟩) h
        · exact ⟨u, hu', h1, h2⟩

end CertChecker

namespace CertChecker

/-- Prefix run of the linkage pass: if every adjacent pair inside
`pre ++ [c]` links and verifies, the pass reaches position `pre.length`
having appended exactly one confirmation per processed pair. -/
lemma linkagePass_append_run (cv : CryptoOracle) :
    ∀ (pre : List Cert) (c : Cert) (rest2 : List Cert) (i : Nat) (msgs : List String),
      (∀ p ∈ chainPairs (pre ++ [c]),
        p.1.issuer = p.2.subject ∧ verify_signature cv p.1 p.2 = true) →
      linkagePass cv (pre ++ c :: rest2) i msgs =
        linkagePass cv (c :: rest2) (i + pre.length) (msgs ++ sigConfirms i pre.length) := by
  intro pre
  induction pre with
  | nil =>
    intro c rest2 i msgs _
    simp [sigConfirms]
  | cons p pre' ih =>
    intro c rest2 i msgs h
    cases pre' with
    | nil =>
      have hpc : p.issuer = c.subject ∧ verify_signature cv p c = true :=
        h (p, c) (by exact List.mem_cons_self _ _)
      simp only [List.cons_append, List.nil_append, linkagePass, hpc.1, hpc.2, ne_eq,
        not_true_eq_false, if_false, Bool.not_true, ite_false, ite_true,
        Bool.false_eq_true, List.length_cons, List.length_nil]
      rw [show sigConfirms i 1 = [tagMsg i "Signature valid"] by
        simp [sigConfirms, List.range_succ]]
    | cons q pre'' =>
      have hpq : p.issuer = q.subject ∧ verify_signature cv p q = true :=
        h (p, q) (by
          simp only [List.cons_append, chainPairs_cons_cons]
          exact List.mem_cons_self _ _)
      have hrest : ∀ x ∈ chainPairs ((q :: pre'') ++ [c]),
          x.1.issuer = x.2.subject ∧ verify_signature cv x.1 x.2 = true := by
        intro x hx
        exact h x (by
          simp only [List.cons_append, chainPairs_cons_cons]
          exact List.mem_cons_of_mem _ (by simpa using hx))
      have hstep : linkagePass cv ((p :: q :: pre'') ++ c :: rest2) i msgs =
          linkagePass cv ((q :: pre'') ++ c :: rest2) (i + 1)
            (msgs ++ [tagMsg i "Signature valid"]) := by
        simp only [List.cons_append, linkagePass, hpq.1, hpq.2, ne_eq, not_true_eq_false,
          if_false, Bool.not_true, ite_false, ite_true, Bool.false_eq_true, List.append_eq]
      rw [hstep, ih c rest2 (i + 1) (msgs ++ [tagMsg i "Signature valid"]) hrest]
      have hidx : i + 1 + (q :: pre'').length = i + (p :: q :: pre'').length := by
        simp only [List.length_cons]
        omega
      have hmsg : msgs ++ [tagMsg i "Signature valid"] ++ sigConfirms (i + 1) (q :: pre'').length =
          msgs ++ sigConfirms i (p :: q :: pre'').length := by
        rw [show (p :: q :: pre'').length = (q :: pre'').length + 1 from rfl, sigConfirms_succ]
        simp [List.append_assoc]
      rw [hidx, hmsg]

end CertChecker

namespace CertChecker

/-- C3: the linkage pass processes adjacent pairs in index order. Under the
hypothesis that all pairs before position `pre.length` link and verify (the
only part of the oracle the conclusion may depend on): a name mismatch at the
current pair aborts with INVALID and a trail containing exactly the earlier
confirmations plus the mismatch message — the error value is independent of
the crypto oracle at the failing pair and beyond, so no signature check is
performed there; a name match with a failing signature aborts with INVALID
the same way; a success appends the positive confirmation and continues with
the next pair; and a linkage-pass failure is returned by `validate_chain` as
its final result, so the audit trail never contains messages for pairs after
the first failing index. -/
theorem C3_linkage_short_circuit (cv : CryptoOracle) (ts : List Cert) (ut : Bool)
    (pre rest : List Cert) (cert issuer : Cert) (msgs : List String)
    (hpre : ∀ p ∈ chainPairs (pre ++ [cert]),
      p.1.issuer = p.2.subject ∧ verify_signature cv p.1 p.2 = true) :
    (cert.issuer ≠ issuer.subject →
      linkagePass cv (pre ++ cert :: issuer :: rest) 0 msgs =
        .error { status := ValidationStatus.invalid,
                 messages := msgs ++ sigConfirms 0 pre.length ++
                   [tagMsg pre.length "Issuer does not match next cert in chain"],
                 is_valid := false }) ∧
    (cert.issuer = issuer.subject → verify_signature cv cert issuer = false →
      linkagePass cv (pre ++ cert :: issuer :: rest) 0 msgs =
        .error { status := ValidationStatus.invalid,
                 messages := msgs ++ sigConfirms 0 pre.length ++
                   [tagMsg pre.length "Invalid signature from issuer"],
                 is_valid := false }) ∧
    (cert.issuer = issuer.subject → verify_signature cv cert issuer = true →
      linkagePass cv (pre ++ cert :: issuer :: rest) 0 msgs =
        linkagePass cv (issuer :: rest) (pre.length + 1)
          (msgs ++ sigConfirms 0 pre.length ++ [tagMsg pre.length "Signature valid"])) ∧
    (∀ r, structuralPass (pre ++ cert :: issuer :: rest) 0 [] = .ok msgs →
      linkagePass cv (pre ++ cert :: issuer :: rest) 0 msgs = .error r →
      validate_chain cv ts (pre ++ cert :: issuer :: rest) ut = r) := by
  have hrun := linkagePass_append_run cv pre cert (issuer :: rest) 0 msgs hpre
  rw [Nat.zero_add] at hrun
  refine ⟨?_, ?_, ?_, ?_⟩
  · intro hne
    rw [hrun]
    simp only [linkagePass, hne, ne_eq, not_false_eq_true, if_true, ite_true]
  · intro heq hvf
    rw [hrun]
    simp only [linkagePass, heq, hvf, ne_eq, not_true_eq_false, if_false, Bool.not_false,
      ite_false, ite_true, Bool.false_eq_true]
  · intro heq hvt
    rw [hrun]
    simp only [linkagePass, heq, hvt, ne_eq, not_true_eq_false, if_false, Bool.not_true,
      ite_false, ite_true, Bool.false_eq_true]
  · intro r hs hl
    cases pre with
    | nil => exact validate_chain_linkage_error cv ts ut cert (issuer :: rest) msgs r hs hl
    | cons p pre' =>
      exact validate_chain_linkage_error cv ts ut p
        (pre' ++ cert :: issuer :: rest) msgs r hs hl

/-- C3 witness: for the two-certificate chain `[certA, certB]` — whose names
do not link — the linkage pass aborts immediately with the index-0 mismatch
message and an otherwise empty trail. -/
theorem C3_linkage_short_circuit_witness :
    (∀ p ∈ chainPairs ([] ++ [certA]),
      p.1.issuer = p.2.subject ∧ verify_signature cvAllOk p.1 p.2 = true) ∧
    certA.issuer ≠ certB.subject ∧
    linkagePass cvAllOk ([] ++ certA :: certB :: []) 0 [] =
      .error { status := ValidationStatus.invalid,
               messages := [] ++ sigConfirms 0 (List.length ([] : List Cert)) ++
                 [tagMsg (List.length ([] : List Cert)) "Issuer does not match next cert in chain"],
               is_valid := false } := by
  have hpre : ∀ p ∈ chainPairs ([] ++ [certA]),
      p.1.issuer = p.2.subject ∧ verify_signature cvAllOk p.1 p.2 = true := by
    intro p hp
    simp [chainPairs] at hp
  have hne : certA.issuer ≠ certB.subject := by decide
  exact ⟨hpre, hne,
    (C3_linkage_short_circuit cvAllOk [] true [] [] certA certB [] hpre).1 hne⟩

end CertChecker

namespace CertChecker

/-- C2: for a chain that passed the structural and linkage stages, with
`use_truststore` set and a non-empty trust store, `validate_chain` examines
the last chain element: the result is VALID exactly when some anchor both
name-matches that element's subject and signature-verifies it (so an anchor
with a matching name but an unrelated, non-verifying key does not suffice);
otherwise the result is INVALID with "Root certificate not found in
truststore" appended. No conjunct constrains the last element's own issuer:
self-signedness is never separately required. -/
theorem C2_truststore_anchor (cv : CryptoOracle) (ts : List Cert)
    (c : Cert) (cs : List Cert) (m1 m2 : List String)
    (hs : structuralPass (c :: cs) 0 [] = .ok m1)
    (hl : linkagePass cv (c :: cs) 0 m1 = .ok m2)
    (hts : ts ≠ []) :
    ((validate_chain cv ts (c :: cs) true).status = ValidationStatus.valid ↔
      ∃ t ∈ ts, ((c :: cs).getLast (List.cons_ne_nil c cs)).subject = t.subject ∧
        verify_signature cv ((c :: cs).getLast (List.cons_ne_nil c cs)) t = true) ∧
    ((∃ t ∈ ts, ((c :: cs).getLast (List.cons_ne_nil c cs)).subject = t.subject ∧
        verify_signature cv ((c :: cs).getLast (List.cons_ne_nil c cs)) t = true) →
      validate_chain cv ts (c :: cs) true =
        { status := ValidationStatus.valid,
          messages := m2 ++ ["Root certificate found in truststore"],
          is_valid := true }) ∧
    ((¬ ∃ t ∈ ts, ((c :: cs).getLast (List.cons_ne_nil c cs)).subject = t.subject ∧
        verify_signature cv ((c :: cs).getLast (List.cons_ne_nil c cs)) t = true) →
      validate_chain cv ts (c :: cs) true =
        { status := ValidationStatus.invalid,
          messages := m2 ++ ["Root certificate not found in truststore"],
          is_valid := false }) := by
  have hrw := validate_chain_passes cv ts true c cs m1 m2 hs hl
  have hemp : ts.isEmpty = false := by
    cases ts with
    | nil => exact absurd rfl hts
    | cons a l => rfl
  rw [hemp] at hrw
  simp only [Bool.not_false, Bool.and_self, if_true, ite_true] at hrw
  rw [← findTrusted_iff cv ((c :: cs).getLast (List.cons_ne_nil c cs)) ts]
  by_cases hf : findTrusted cv ((c :: cs).getLast (List.cons_ne_nil c cs)) ts = true
  · rw [if_pos hf] at hrw
    rw [hrw]
    exact ⟨by simp [hf], fun _ => rfl, fun hn => absurd hf hn⟩
  · rw [if_neg hf] at hrw
    rw [hrw]
    refine ⟨by simp [hf], fun hp => absurd hp hf, fun _ => rfl⟩

/-- C2 witness: the single-certificate chain `[certRootNS]`, whose element is
not self-signed, is VALID against the trust store `[certR]` whose anchor
shares the subject `CN=root` and (under the always-accepting oracle)
signature-verifies it. -/
theorem C2_truststore_anchor_witness :
    structuralPass [certRootNS] 0 [] =
      .ok ["Cert 0: Basic constraints extension not found",
           "Cert 0: Key usage extension not found"] ∧
    linkagePass cvAllOk [certRootNS] 0
      ["Cert 0: Basic constraints extension not found",
       "Cert 0: Key usage extension not found"] =
      .ok ["Cert 0: Basic constraints extension not found",
           "Cert 0: Key usage extension not found"] ∧
    certRootNS.subject ≠ certRootNS.issuer ∧
    validate_chain cvAllOk [certR] [certRootNS] true =
      { status := ValidationStatus.valid,
        messages := ["Cert 0: Basic constraints extension not found",
                     "Cert 0: Key usage extension not found",
                     "Root certificate found in truststore"],
        is_valid := true } := by
  have hs : structuralPass [certRootNS] 0 [] =
      .ok ["Cert 0: Basic constraints extension not found",
           "Cert 0: Key usage extension not found"] := by rfl
  have hl : linkagePass cvAllOk [certRootNS] 0
      ["Cert 0: Basic constraints extension not found",
       "Cert 0: Key usage extension not found"] =
      .ok ["Cert 0: Basic constraints extension not found",
           "Cert 0: Key usage extension not found"] := by rfl
  have hx : ∃ t ∈ [certR],
      ([certRootNS].getLast (List.cons_ne_nil certRootNS [])).subject = t.subject ∧
      verify_signature cvAllOk ([certRootNS].getLast (List.cons_ne_nil certRootNS [])) t =
        true :=
    ⟨certR, List.mem_cons_self _ _, by decide, by decide⟩
  have h := (C2_truststore_anchor cvAllOk [certR] certRootNS [] _ _ hs hl
    (by simp)).2.1 hx
  exact ⟨hs, hl, by decide, by rw [h]; rfl⟩

end CertChecker

namespace CertChecker

/-- C5: in the structural pass, a certificate whose basic constraints mark it
as a CA and whose key-usage extension is present but lacks `key_cert_sign`
yields INVALID, and `validate_chain` then short-circuits at the first such
index with a trail retaining everything accumulated up to and including that
failure; a missing key-usage or basic-constraints extension only yields a
WARNING-level sub-result (with `is_valid = true`) that is recorded and passed
over; and when every certificate passes the key-usage check and the linkage
pass succeeds, the final status is VALID — structural warnings never
downgrade it. -/
theorem C5_structural_warnings (cv : CryptoOracle) (ts : List Cert) (ut : Bool)
    (pre rest : List Cert) (cert : Cert) :
    (∀ bc ku, cert.basic_constraints = some bc → bc.ca = true →
       cert.key_usage = some ku → ku.key_cert_sign = false →
       check_key_usage cert =
         { status := ValidationStatus.invalid,
           messages := ["CA certificate missing key_cert_sign usage"],
           is_valid := false }) ∧
    (cert.key_usage = none →
       check_key_usage cert =
         { status := ValidationStatus.warning,
           messages := ["Key usage extension not found"], is_valid := true }) ∧
    (cert.basic_constraints = none →
       check_basic_constraints cert =
         { status := ValidationStatus.warning,
           messages := ["Basic constraints extension not found"], is_valid := true }) ∧
    ((∀ c ∈ pre, (check_key_usage c).is_valid = true) →
       (check_key_usage cert).is_valid = false →
       validate_chain cv ts (pre ++ cert :: rest) ut =
         { status := ValidationStatus.invalid,
           messages := structTrail pre 0 ++
             (check_basic_constraints cert).messages.map (tagMsg pre.length) ++
             (check_key_usage cert).messages.map (tagMsg pre.length),
           is_valid := false }) ∧
    ((∀ c ∈ pre ++ cert :: rest, (check_key_usage c).is_valid = true) →
       (∀ p ∈ chainPairs (pre ++ cert :: rest),
         p.1.issuer = p.2.subject ∧ verify_signature cv p.1 p.2 = true) →
       (validate_chain cv ts (pre ++ cert :: rest) false).status =
         ValidationStatus.valid ∧
       (validate_chain cv ts (pre ++ cert :: rest) false).is_valid = true) := by
  refine ⟨?_, ?_, ?_, ?_, ?_⟩
  · intro bc ku hbc hca hku hsign
    simp [check_key_usage, hku, hbc, hca, hsign]
  · intro h
    simp [check_key_usage, h]
  · intro h
    simp [check_basic_constraints, h]
  · intro hpre hbad
    have hsp := structuralPass_first_failure pre cert rest 0 [] hpre hbad
    simp only [Nat.zero_add, List.nil_append] at hsp
    cases pre with
    | nil => exact validate_chain_structural_error cv ts ut cert rest _ hsp
    | cons p pre' => exact validate_chain_structural_error cv ts ut p (pre' ++ cert :: rest) _ hsp
  · intro hall hpairs
    have hsp := structuralPass_ok_run (pre ++ cert :: rest) 0 [] hall
    simp only [List.nil_append] at hsp
    have hlp := linkagePass_ok_run cv (pre ++ cert :: rest) 0
      (structTrail (pre ++ cert :: rest) 0) hpairs
    cases pre with
    | nil =>
      simp only [List.nil_append] at hsp hlp ⊢
      have hrw := validate_chain_passes cv ts false cert rest _ _ hsp hlp
      simp only [Bool.false_and, if_false, ite_false, Bool.false_eq_true] at hrw
      rw [hrw]
      exact ⟨rfl, rfl⟩
    | cons p pre' =>
      simp only [List.cons_append] at hsp hlp ⊢
      have hrw := validate_chain_passes cv ts false p (pre' ++ cert :: rest) _ _ hsp hlp
      simp only [Bool.false_and, if_false, ite_false, Bool.false_eq_true] at hrw
      rw [hrw]
      exact ⟨rfl, rfl⟩

/-- C5 witness: the chain `[certBad]` (a CA certificate whose key usage lacks
`key_cert_sign`) is rejected with the accumulated trail ending in the
key-usage failure message. -/
theorem C5_structural_warnings_witness :
    (∀ c ∈ ([] : List Cert), (check_key_usage c).is_valid = true) ∧
    (check_key_usage certBad).is_valid = false ∧
    validate_chain cvAllOk [] ([] ++ certBad :: []) true =
      { status := ValidationStatus.invalid,
        messages := structTrail [] 0 ++
          (check_basic_constraints certBad).messages.map
            (tagMsg (List.length ([] : List Cert))) ++
          (check_key_usage certBad).messages.map
            (tagMsg (List.length ([] : List Cert))),
        is_valid := false } := by
  have h1 : ∀ c ∈ ([] : List Cert), (check_key_usage c).is_valid = true := by
    intro c hc
    simp at hc
  have h2 : (check_key_usage certBad).is_valid = false := by decide
  exact ⟨h1, h2,
    (C5_structural_warnings cvAllOk [] true [] [] certBad).2.2.2.1 h1 h2⟩

end CertChecker
